import Mathlib

/-!
# Freedom outbound handler (proxy/freedom/freedom.go)

A shallow embedding of `FreedomConnection`: its constructor, `ResolveIP` and
`Dispatch`.  Calls into collaborators (DNS server, dice, dialer, streams, the
connection) are recorded as events, in program order, so that "called exactly
once", "never queried" and "written before" become statements about lists.
-/

namespace Freedom

/-! ## Data model -/

/-- The enum `v2net.Network`.  Its declaration is outside the source file; these are
the constants the file names: `Network_TCP` (line 61), `Network_UDP` (line 117) and
`Network_RawTCP` (line 136).  The field `Destination.Network` has this type, so a
destination may carry any of them. -/
inductive Network where
  | RawTCP
  | TCP
  | UDP
  deriving DecidableEq, Repr

/-- Modelled from the spec: the address families of section 3 (`Address.Family()`). -/
inductive AddressFamily where
  | IPv4
  | IPv6
  | Domain
  deriving DecidableEq, Repr

/-- Modelled from the spec: an IP address as returned by the name lookup (`net.IP`),
by family and numeric value. -/
inductive IP where
  | v4 (value : Nat)
  | v6 (value : Nat)
  deriving DecidableEq, Repr

/-- Modelled from the spec: `v2net.Address`, an IP address or a domain name. -/
inductive Address where
  | ip (a : IP)
  | domain (name : String)
  deriving DecidableEq, Repr

/-- Modelled from the spec: `v2net.IPAddress`, the address holding the given IP. -/
def IPAddress (ip : IP) : Address := Address.ip ip

def AddressFamily.IsDomain : AddressFamily → Bool
  | AddressFamily.Domain => true
  | _ => false

def Address.Family : Address → AddressFamily
  | Address.ip (IP.v4 _) => AddressFamily.IPv4
  | Address.ip (IP.v6 _) => AddressFamily.IPv6
  | Address.domain _ => AddressFamily.Domain

/-- The domain name of a domain address (`Address.Domain()`); empty for an IP. -/
def Address.Domain : Address → String
  | Address.domain name => name
  | Address.ip _ => ""

/-- Destination of a session: `v2net.Destination` with fields Network, Address, Port. -/
structure Destination where
  Network : Network
  Address : Address
  Port : Nat
  deriving DecidableEq, Repr

/-- Modelled from the spec: `v2net.TCPDestination`. -/
def TCPDestination (address : Address) (port : Nat) : Destination :=
  { Network := Network.TCP, Address := address, Port := port }

/-- Modelled from the spec: `v2net.UDPDestination`. -/
def UDPDestination (address : Address) (port : Nat) : Destination :=
  { Network := Network.UDP, Address := address, Port := port }

inductive Config_DomainStrategy where
  | AS_IS
  | USE_IP
  deriving DecidableEq, Repr

structure Config where
  DomainStrategy : Config_DomainStrategy
  Timeout : Nat
  deriving DecidableEq, Repr

/-- The name-lookup capability `dns.Server`: `Get` maps a domain to its answer list. -/
structure Server where
  Get : String → List IP

/-- Modelled from the spec: `dice.Roll n` picks an index below `n` ("select ONE ...
from the set"); which one is left open. -/
structure Dice where
  Roll : Nat → Nat
  Roll_lt : ∀ n, 0 < n → Roll n < n

/-- The handler metadata `proxy.OutboundHandlerMeta`: the local bind address. -/
structure OutboundHandlerMeta where
  Address : Address
  deriving DecidableEq, Repr

/-- The handler object.  `dns` is a Go interface value: `none` is nil. -/
structure FreedomConnection where
  domainStrategy : Config_DomainStrategy
  timeout : Nat
  dns : Option Server
  meta : OutboundHandlerMeta

/-- An open connection handle; `rawTCP` tells whether it is a `*tcp.RawConnection`. -/
structure Conn where
  id : Nat
  rawTCP : Bool
  deriving DecidableEq, Repr

/-- The reader the downlink pipe reads from: the connection itself or a
`v2net.NewTimeOutReader (seconds, conn)`. -/
inductive Reader where
  | direct (conn : Conn)
  | timeOut (seconds : Nat) (conn : Conn)
  deriving DecidableEq, Repr

/-- Calls made by the handler, as recorded in a trace. -/
inductive Event where
  | LogInfo (msg : String)
  | LogWarning (msg : String)
  | DnsGet (domain : String)
  | DiceRoll (n : Nat)
  | Dial (src : Address) (dest : Destination)
  | ConnWrite (conn : Conn) (bytes : List Nat)
  | GoUplink
  | ConnCloseWrite (conn : Conn)
  | WriterRelease
  | NewAdaptiveReader (reader : Reader)
  | OutputWrite (bytes : List Nat)
  | ReaderRelease
  | OutputClose
  | InputRelease
  | PayloadRelease
  | ConnClose (conn : Conn)
  deriving DecidableEq, Repr

/-- Outcome of a call: a value, or a Go run-time panic. -/
inductive Outcome (α : Type) where
  | ok (value : α)
  | panic (msg : String)
  deriving DecidableEq, Repr

/-! ## ResolveIP -/

/-- The method `FreedomConnection.ResolveIP`: the returned destination together with
the calls made to the DNS server and the dice.  A nil `dns` makes `v.dns.Get` panic. -/
def ResolveIP (v : FreedomConnection) (dice : Dice) (destination : Destination) :
    Outcome Destination × List Event :=
  if !destination.Address.Family.IsDomain then
    (Outcome.ok destination, [])
  else
    match v.dns with
    | none => (Outcome.panic "nil pointer dereference", [])
    | some dns =>
      let ips := dns.Get destination.Address.Domain
      if h : ips.length = 0 then
        (Outcome.ok destination,
          [Event.DnsGet destination.Address.Domain,
           Event.LogInfo "Freedom: DNS returns nil answer. Keep domain as is."])
      else
        let ip := ips.get ⟨dice.Roll ips.length, dice.Roll_lt ips.length (Nat.pos_of_ne_zero h)⟩
        let newDest :=
          if destination.Network = Network.TCP then
            TCPDestination (IPAddress ip) destination.Port
          else
            UDPDestination (IPAddress ip) destination.Port
        (Outcome.ok newDest,
          [Event.DnsGet destination.Address.Domain, Event.DiceRoll ips.length,
           Event.LogInfo "Freedom: Changing destination"])

/-! ## Construction -/

/-- An application registered in a space (`app.Application`): a `dns.Server`, or an
application of some other type. -/
inductive App where
  | dnsServer (server : Server)
  | other

/-- Modelled from the spec: `app.Space`, as far as the handler uses it: the application
registered in it under `dns.APP_ID`, if any. -/
structure Space where
  dnsApp : Option App

def Space.HasApp (space : Space) : Bool := space.dnsApp.isSome

def Space.GetApp (space : Space) : Option App := space.dnsApp

/-- The callback type of `space.InitializeApplication`: run against the space and the
handler object it captured, it returns a Go `error` (`none` is nil) and the handler as
it leaves it, or panics. -/
def ApplicationInitializer : Type :=
  Space → FreedomConnection → Outcome (Option String × FreedomConnection)

/-- The function `NewFreedomConnection`: the handler it returns, and the callback it
hands to `space.InitializeApplication`.  It has no error result.  The constructor uses
`space` only to register the callback; the callback reads the space as it is when it is
run (`spaceNow`) and writes the `dns` field of the handler object `f`.  The type
assertion `.(dns.Server)` of line 40 is unchecked: it panics when the application found
is not a `dns.Server`. -/
def NewFreedomConnection (config : Config) (_space : Space) (meta : OutboundHandlerMeta) :
    FreedomConnection × ApplicationInitializer :=
  let f : FreedomConnection :=
    { domainStrategy := config.DomainStrategy, timeout := config.Timeout, dns := none,
      meta := meta }
  (f, fun spaceNow f =>
    if config.DomainStrategy = Config_DomainStrategy.USE_IP then
      if !spaceNow.HasApp then
        Outcome.ok (some "Freedom: DNS server is not found in the space.", f)
      else
        match spaceNow.GetApp with
        | some (App.dnsServer server) => Outcome.ok (none, { f with dns := some server })
        | _ => Outcome.panic "interface conversion: not a dns.Server"
    else
      Outcome.ok (none, f))

/-- Result of `FreedomFactory.Create`: the pair `(handler, error)` it returns, and the
callback registered with the space on the way. -/
structure Created where
  handler : FreedomConnection
  err : Option String
  registered : ApplicationInitializer

/-- The method `FreedomFactory.Create`: `return NewFreedomConnection(...), nil`. -/
def Create (space : Space) (config : Config) (meta : OutboundHandlerMeta) : Created :=
  let r := NewFreedomConnection config space meta
  { handler := r.1, err := none, registered := r.2 }

/-! ## Dial with retry -/

/-- Modelled from the spec: `retry.ExponentialBackoff(attempts, delay).On(method)` is
outside the source file.  Section 4.2: up to `attempts` attempts in total, stopping at
the first success; if all attempts fail, the last error encountered is returned.  The
waiting between attempts is not modelled.  `last` is the error held so far. -/
def retryLoop {σ : Type} (method : σ → Option String × σ) :
    Nat → String → σ → Option String × σ
  | 0, last, s => (some last, s)
  | n + 1, _, s =>
    match method s with
    | (none, s1) => (none, s1)
    | (some e, s1) => retryLoop method n e s1

/-- Modelled from the spec: see `retryLoop`; `delay` is the base delay. -/
def ExponentialBackoffOn {σ : Type} (attempts : Nat) (_delay : Nat)
    (method : σ → Option String × σ) (s : σ) : Option String × σ :=
  retryLoop method attempts "Retry: no attempt was made." s

/-- What lies outside the handler during one `Dispatch` call. -/
structure World where
  /-- The dice of `ResolveIP`. -/
  dice : Dice
  /-- The single-attempt primitive `internet.Dial`; its first argument is the number of
  invocations made before this one, so that its outcome may change between attempts. -/
  Dial : Nat → Address → Destination → Except String Conn
  /-- The chunks `PipeUntilEOF(input, v2writer)` relays to the connection before it stops. -/
  uplink : List (List Nat)
  /-- The error, if any, with which the uplink pipe stops. -/
  uplinkErr : Option String
  /-- The chunks `PipeUntilEOF(v2reader, output)` relays to the output stream before it stops. -/
  downlink : List (List Nat)
  /-- The error, if any, with which the downlink pipe stops. -/
  downlinkErr : Option String

/-- Variables the retried closure of `Dispatch` works on: the captured `conn`, the
number of `internet.Dial` invocations so far, and the calls recorded. -/
structure DialState where
  conn : Option Conn
  invoked : Nat
  trace : List Event

/-- The closure passed to `On` in `Dispatch`: one `internet.Dial` call. -/
def dialOnce (v : FreedomConnection) (w : World) (destination : Destination)
    (s : DialState) : Option String × DialState :=
  match w.Dial s.invoked v.meta.Address destination with
  | Except.error err =>
    (some err, { s with invoked := s.invoked + 1,
                        trace := s.trace ++ [Event.Dial v.meta.Address destination] })
  | Except.ok rawConn =>
    (none, { conn := some rawConn, invoked := s.invoked + 1,
             trace := s.trace ++ [Event.Dial v.meta.Address destination] })

/-- The dial step of `Dispatch`: `retry.ExponentialBackoff(5, 100).On(...)`. -/
def dialStep (v : FreedomConnection) (w : World) (destination : Destination) :
    Option String × DialState :=
  ExponentialBackoffOn 5 100 (dialOnce v w destination)
    { conn := none, invoked := 0, trace := [] }

/-! ## Dispatch -/

/-- Modelled from the spec: `alloc.Buffer`, the initial payload, as its bytes. -/
structure Buffer where
  Bytes : List Nat
  deriving DecidableEq, Repr

def Buffer.IsEmpty (b : Buffer) : Bool := b.Bytes.isEmpty

/-- The deferred calls registered at the top of `Dispatch`, in the order they run
(last registered first): `ray.OutboundOutput().Close()`, `ray.OutboundInput().Release()`,
`payload.Release()`. -/
def deferredCalls : List Event :=
  [Event.OutputClose, Event.InputRelease, Event.PayloadRelease]

/-- The destination `Dispatch` goes on with after lines 78-80, and the calls made. -/
def resolveStep (v : FreedomConnection) (w : World) (destination : Destination) :
    Outcome Destination × List Event :=
  if v.domainStrategy = Config_DomainStrategy.USE_IP
      && destination.Address.Family.IsDomain then
    ResolveIP v w.dice destination
  else
    (Outcome.ok destination, [])

/-- The timeout of lines 116-119. -/
def effectiveTimeout (v : FreedomConnection) (destination : Destination) : Nat :=
  let timeout := v.timeout
  if destination.Network = Network.UDP then 16 else timeout

/-- The reader of lines 114-122. -/
def chooseReader (v : FreedomConnection) (destination : Destination) (conn : Conn) :
    Reader :=
  let timeout := effectiveTimeout v destination
  if timeout > 0 then Reader.timeOut timeout conn else Reader.direct conn

/-- The goroutine of lines 102-112, from its start to its end. -/
def uplinkBody (w : World) (conn : Conn) : List Event :=
  w.uplink.map (Event.ConnWrite conn)
    ++ (match w.uplinkErr with
        | some _ => [Event.LogInfo "Freedom: Failed to transport all TCP request"]
        | none => [])
    ++ (if conn.rawTCP then [Event.ConnCloseWrite conn] else [])
    ++ [Event.WriterRelease]

/-- Lines 114-129 of the calling flow, followed by the deferred calls as they run on
return: `conn.Close()` first, then `deferredCalls`. -/
def downlinkBody (v : FreedomConnection) (w : World) (destination : Destination)
    (conn : Conn) : List Event :=
  [Event.NewAdaptiveReader (chooseReader v destination conn)]
    ++ w.downlink.map Event.OutputWrite
    ++ (match w.downlinkErr with
        | some _ => [Event.LogInfo "Freedom: Failed to transport all TCP response"]
        | none => [])
    ++ [Event.ReaderRelease, Event.OutputClose]
    ++ [Event.ConnClose conn]
    ++ deferredCalls

/-- One run of `Dispatch`: the calls of the calling flow up to and including the `go`
statement (all of them when no goroutine is started), the calls of the calling flow
after it, and the calls of the goroutine. -/
structure Run where
  pre : List Event
  post : List Event
  uplink : List Event
  deriving DecidableEq, Repr

/-- The method `FreedomConnection.Dispatch`.  The three deferred calls of lines 73-75
run on every way out: when `ResolveIP` panics, when the dial step fails (line 91), and
at the end of the body, there after the deferred `conn.Close()` of line 93.  A nil
`conn` after a dial step without error would panic at line 93, before any write. -/
def Dispatch (v : FreedomConnection) (w : World) (destination : Destination)
    (payload : Buffer) : Run :=
  let opening := [Event.LogInfo "Freedom: Opening connection"]
  match resolveStep v w destination with
  | (Outcome.panic _, resolving) =>
    { pre := opening ++ resolving ++ deferredCalls, post := [], uplink := [] }
  | (Outcome.ok destination, resolving) =>
    match dialStep v w destination with
    | (some _, st) =>
      { pre := opening ++ resolving ++ st.trace
                ++ [Event.LogWarning "Freedom: Failed to open connection"]
                ++ deferredCalls,
        post := [], uplink := [] }
    | (none, st) =>
      match st.conn with
      | none =>
        { pre := opening ++ resolving ++ st.trace ++ deferredCalls, post := [], uplink := [] }
      | some conn =>
        let write := if !payload.IsEmpty then [Event.ConnWrite conn payload.Bytes] else []
        { pre := opening ++ resolving ++ st.trace ++ write ++ [Event.GoUplink],
          post := downlinkBody v w destination conn,
          uplink := uplinkBody w conn }

/-- Merge of the calling flow and the goroutine after the `go` statement, by a
schedule: `true` lets the calling flow make its next call, `false` the goroutine; when
the schedule runs out or one side has finished, the rest follows in order. -/
def interleave {α : Type} : List Bool → List α → List α → List α
  | _, [], ys => ys
  | _, x :: xs, [] => x :: xs
  | [], x :: xs, y :: ys => (x :: xs) ++ (y :: ys)
  | true :: s, x :: xs, y :: ys => x :: interleave s xs (y :: ys)
  | false :: s, x :: xs, y :: ys => y :: interleave s (x :: xs) ys

/-- All calls of a run as they happen under a schedule. -/
def Run.trace (r : Run) (schedule : List Bool) : List Event :=
  r.pre ++ interleave schedule r.post r.uplink

/-- The byte strings written to connection `conn`, in order. -/
def connWrites (conn : Conn) : List Event → List (List Nat)
  | [] => []
  | Event.ConnWrite c bytes :: rest =>
    if c = conn then bytes :: connWrites conn rest else connWrites conn rest
  | _ :: rest => connWrites conn rest

/-- The destinations handed to `internet.Dial`, in order. -/
def dialedDestinations : List Event → List Destination
  | [] => []
  | Event.Dial _ dest :: rest => dest :: dialedDestinations rest
  | _ :: rest => dialedDestinations rest

/-- The destination `Dispatch` dials and the connection it obtains, when its dial step
succeeds; `none` when `ResolveIP` panics or every dial attempt fails. -/
def dialed (v : FreedomConnection) (w : World) (destination : Destination) :
    Option (Destination × Conn) :=
  match resolveStep v w destination with
  | (Outcome.panic _, _) => none
  | (Outcome.ok dest, _) =>
    match dialStep v w dest with
    | (some _, _) => none
    | (none, st) => st.conn.map (fun conn => (dest, conn))

/-- Calls that touch neither the payload, the stream pair nor a connection. -/
def Event.quiet : Event → Bool
  | Event.LogInfo _ => true
  | Event.LogWarning _ => true
  | Event.DnsGet _ => true
  | Event.DiceRoll _ => true
  | Event.Dial _ _ => true
  | _ => false

/-- Calls to the DNS server, the dice or the dial primitive. -/
def Event.lookupOrDial : Event → Bool
  | Event.DnsGet _ => true
  | Event.DiceRoll _ => true
  | Event.Dial _ _ => true
  | _ => false

/-! ## Example data -/

/-- A dice that always picks the last index. -/
def exampleDice : Dice :=
  { Roll := fun n => n - 1
    Roll_lt := fun _ h => Nat.sub_lt h Nat.one_pos }

/-- A DNS server that knows `example.test` (10.0.0.1 and 10.0.0.2) and nothing else. -/
def exampleServer : Server :=
  { Get := fun name =>
      if name = "example.test" then [IP.v4 167772161, IP.v4 167772162] else [] }

def exampleMeta : OutboundHandlerMeta := { Address := Address.ip (IP.v4 0) }

/-- A handler with strategy USE_IP, no configured timeout, and the example DNS server. -/
def exampleHandler : FreedomConnection :=
  { domainStrategy := Config_DomainStrategy.USE_IP
    timeout := 0
    dns := some exampleServer
    meta := exampleMeta }

/-- A handler with strategy AS_IS and a configured timeout of 30 seconds. -/
def exampleAsIsHandler : FreedomConnection :=
  { domainStrategy := Config_DomainStrategy.AS_IS
    timeout := 30
    dns := none
    meta := exampleMeta }

def exampleConn : Conn := { id := 7, rawTCP := true }

/-- A world whose dial primitive fails twice, then succeeds. -/
def exampleWorld : World :=
  { dice := exampleDice
    Dial := fun i _ _ => if i < 2 then Except.error "refused" else Except.ok exampleConn
    uplink := [[1, 2], [3]]
    uplinkErr := none
    downlink := [[9]]
    downlinkErr := some "reset" }

/-- A world whose dial primitive always fails. -/
def exampleDeadWorld : World :=
  { dice := exampleDice
    Dial := fun i _ _ => Except.error (if i < 4 then "refused" else "unreachable")
    uplink := []
    uplinkErr := none
    downlink := []
    downlinkErr := none }

def exampleDomain : Destination :=
  { Network := Network.TCP, Address := Address.domain "example.test", Port := 80 }

/-- A domain destination whose network is neither TCP nor UDP. -/
def exampleRawDomain : Destination :=
  { Network := Network.RawTCP, Address := Address.domain "example.test", Port := 80 }

def exampleUnknownDomain : Destination :=
  { Network := Network.UDP, Address := Address.domain "nx.test", Port := 53 }

def exampleIPDestination : Destination :=
  { Network := Network.UDP, Address := Address.ip (IP.v4 167772161), Port := 53 }

def examplePayload : Buffer := { Bytes := [71, 69, 84] }

/-! ## Lemmas: lists of calls -/

theorem interleave_perm {α : Type} (s : List Bool) (xs ys : List α) :
    (interleave s xs ys).Perm (xs ++ ys) := by
  induction s, xs, ys using interleave.induct with
  | case1 s ys => simp [interleave]
  | case2 s x xs => simp [interleave]
  | case3 x xs y ys => simp [interleave]
  | case4 s x xs y ys ih =>
    simp only [interleave, List.cons_append]
    exact List.Perm.cons x ih
  | case5 s x xs y ys ih =>
    simp only [interleave]
    exact (List.Perm.cons y ih).trans (List.perm_middle.symm)

theorem count_interleave (e : Event) (s : List Bool) (xs ys : List Event) :
    (interleave s xs ys).count e = xs.count e + ys.count e := by
  rw [(interleave_perm s xs ys).count_eq, List.count_append]

theorem mem_interleave {α : Type} (a : α) (s : List Bool) (xs ys : List α) :
    a ∈ interleave s xs ys ↔ a ∈ xs ∨ a ∈ ys := by
  rw [(interleave_perm s xs ys).mem_iff, List.mem_append]

theorem count_quiet (e : Event) (he : e.quiet = false) (q : List Event)
    (hq : ∀ x ∈ q, x.quiet = true) : q.count e = 0 := by
  apply List.count_eq_zero.mpr
  intro hmem
  have := hq e hmem
  rw [he] at this
  exact Bool.noConfusion this

theorem connWrites_append (conn : Conn) (a b : List Event) :
    connWrites conn (a ++ b) = connWrites conn a ++ connWrites conn b := by
  induction a with
  | nil => rfl
  | cons e a ih =>
    cases e <;> simp [connWrites, ih]
    split <;> simp

theorem connWrites_quiet (conn : Conn) (q : List Event)
    (hq : ∀ x ∈ q, x.quiet = true) : connWrites conn q = [] := by
  induction q with
  | nil => rfl
  | cons e q ih =>
    have he := hq e (List.mem_cons_self e q)
    have hq1 : ∀ x ∈ q, x.quiet = true := fun x hx => hq x (List.mem_cons_of_mem e hx)
    cases e <;> simp [Event.quiet] at he <;> simp [connWrites, ih hq1]

theorem connWrites_map (conn : Conn) (chunks : List (List Nat)) :
    connWrites conn (chunks.map (Event.ConnWrite conn)) = chunks := by
  induction chunks with
  | nil => rfl
  | cons c cs ih => simp [connWrites, ih]

theorem connWrites_interleave (conn : Conn) (s : List Bool) (xs ys : List Event)
    (hxs : ∀ x ∈ xs, connWrites conn [x] = []) :
    connWrites conn (interleave s xs ys) = connWrites conn ys := by
  induction s, xs, ys using interleave.induct with
  | case1 s ys => simp [interleave]
  | case2 s x xs =>
    simp only [interleave]
    have h1 := hxs x (List.mem_cons_self x xs)
    have h2 : ∀ z ∈ xs, connWrites conn [z] = [] :=
      fun z hz => hxs z (List.mem_cons_of_mem x hz)
    have : x :: xs = [x] ++ xs := rfl
    rw [this, connWrites_append, h1]
    clear this h1 hxs
    induction xs with
    | nil => rfl
    | cons z zs ih =>
      have hz := h2 z (List.mem_cons_self z zs)
      have : z :: zs = [z] ++ zs := rfl
      rw [this, connWrites_append, hz]
      exact ih (fun u hu => h2 u (List.mem_cons_of_mem z hu))
  | case3 x xs y ys =>
    simp only [interleave]
    rw [connWrites_append]
    have : connWrites conn (x :: xs) = [] := by
      clear ys
      generalize x :: xs = l at hxs
      induction l with
      | nil => rfl
      | cons z zs ih =>
        have hz := hxs z (List.mem_cons_self z zs)
        have : z :: zs = [z] ++ zs := rfl
        rw [this, connWrites_append, hz]
        exact ih (fun u hu => hxs u (List.mem_cons_of_mem z hu))
    rw [this]; rfl
  | case4 s x xs y ys ih =>
    simp only [interleave]
    have h1 := hxs x (List.mem_cons_self x xs)
    have h2 : ∀ z ∈ xs, connWrites conn [z] = [] :=
      fun z hz => hxs z (List.mem_cons_of_mem x hz)
    have : x :: interleave s xs (y :: ys) = [x] ++ interleave s xs (y :: ys) := rfl
    rw [this, connWrites_append, h1, ih h2]; rfl
  | case5 s x xs y ys ih =>
    simp only [interleave]
    have e1 : y :: interleave s (x :: xs) ys = [y] ++ interleave s (x :: xs) ys := rfl
    have e2 : y :: ys = [y] ++ ys := rfl
    rw [e1, e2, connWrites_append, connWrites_append, ih hxs]

/-! ## Lemmas: the dial step -/

theorem dialOnce_error (v : FreedomConnection) (w : World) (dest : Destination)
    (s : DialState) (e : String)
    (h : w.Dial s.invoked v.meta.Address dest = Except.error e) :
    dialOnce v w dest s =
      (some e, { conn := s.conn, invoked := s.invoked + 1,
                 trace := s.trace ++ [Event.Dial v.meta.Address dest] }) := by
  simp [dialOnce, h]

theorem dialOnce_ok (v : FreedomConnection) (w : World) (dest : Destination)
    (s : DialState) (c : Conn)
    (h : w.Dial s.invoked v.meta.Address dest = Except.ok c) :
    dialOnce v w dest s =
      (none, { conn := some c, invoked := s.invoked + 1,
               trace := s.trace ++ [Event.Dial v.meta.Address dest] }) := by
  simp [dialOnce, h]

theorem replicate_succ_front {α : Type} (a : α) (l : List α) (k : Nat) :
    l ++ [a] ++ List.replicate k a = l ++ List.replicate (k + 1) a := by
  simp [List.replicate_succ]

/-- Whatever the primitive does, the retried dial makes between one and `n` calls of
`internet.Dial`, all with the same arguments, and nothing else; it ends without error
exactly when it has captured a connection. -/
theorem retryLoop_dial_shape (v : FreedomConnection) (w : World) (dest : Destination) :
    ∀ (n : Nat) (last : String) (s : DialState),
      ∃ k, k ≤ n ∧
        (retryLoop (dialOnce v w dest) n last s).2.trace
          = s.trace ++ List.replicate k (Event.Dial v.meta.Address dest) ∧
        (retryLoop (dialOnce v w dest) n last s).2.invoked = s.invoked + k ∧
        ((retryLoop (dialOnce v w dest) n last s).1 = none →
          1 ≤ k ∧ ∃ c, (retryLoop (dialOnce v w dest) n last s).2.conn = some c) ∧
        (∀ e, (retryLoop (dialOnce v w dest) n last s).1 = some e →
          k = n ∧ (retryLoop (dialOnce v w dest) n last s).2.conn = s.conn) := by
  intro n
  induction n with
  | zero =>
    intro last s
    exact ⟨0, le_refl 0, by simp [retryLoop], by simp [retryLoop], by simp [retryLoop],
      by simp [retryLoop]⟩
  | succ n ih =>
    intro last s
    cases h : w.Dial s.invoked v.meta.Address dest with
    | error e =>
      have hd := dialOnce_error v w dest s e h
      obtain ⟨k, hk, ht, hi, hok, herr⟩ := ih e
        { conn := s.conn, invoked := s.invoked + 1,
          trace := s.trace ++ [Event.Dial v.meta.Address dest] }
      have hr : retryLoop (dialOnce v w dest) (n + 1) last s
          = retryLoop (dialOnce v w dest) n e
              { conn := s.conn, invoked := s.invoked + 1,
                trace := s.trace ++ [Event.Dial v.meta.Address dest] } := by
        simp [retryLoop, hd]
      rw [hr]
      refine ⟨k + 1, by omega, ?_, ?_, ?_, ?_⟩
      · rw [ht]; exact replicate_succ_front _ _ _
      · rw [hi]; simp only []; omega
      · intro h0
        obtain ⟨_, hc⟩ := hok h0
        exact ⟨by omega, hc⟩
      · intro e1 h1
        obtain ⟨hkn, hc⟩ := herr e1 h1
        exact ⟨by omega, hc⟩
    | ok c =>
      have hd := dialOnce_ok v w dest s c h
      have hr : retryLoop (dialOnce v w dest) (n + 1) last s
          = (none, { conn := some c, invoked := s.invoked + 1,
                     trace := s.trace ++ [Event.Dial v.meta.Address dest] }) := by
        simp [retryLoop, hd]
      rw [hr]
      refine ⟨1, by omega, by simp, by simp, ?_, ?_⟩
      · intro _; exact ⟨le_refl 1, c, rfl⟩
      · intro e1 h1; simp at h1

/-- If the primitive fails `N` times and then succeeds, and `N` is below the attempt
budget, the retried dial captures that connection after `N + 1` calls. -/
theorem retryLoop_dial_success (v : FreedomConnection) (w : World) (dest : Destination)
    (c : Conn) :
    ∀ (N n : Nat) (last : String) (s : DialState), N < n →
      (∀ i, i < N → ∃ e, w.Dial (s.invoked + i) v.meta.Address dest = Except.error e) →
      w.Dial (s.invoked + N) v.meta.Address dest = Except.ok c →
      retryLoop (dialOnce v w dest) n last s =
        (none, { conn := some c, invoked := s.invoked + (N + 1),
                 trace := s.trace ++ List.replicate (N + 1) (Event.Dial v.meta.Address dest) }) := by
  intro N
  induction N with
  | zero =>
    intro n last s hn _ hok
    obtain ⟨m, rfl⟩ : ∃ m, n = m + 1 := ⟨n - 1, by omega⟩
    have hd := dialOnce_ok v w dest s c (by simpa using hok)
    simp [retryLoop, hd]
  | succ N ih =>
    intro n last s hn hfail hok
    obtain ⟨m, rfl⟩ : ∃ m, n = m + 1 := ⟨n - 1, by omega⟩
    obtain ⟨e, he⟩ := hfail 0 (by omega)
    have hd := dialOnce_error v w dest s e (by simpa using he)
    have hr : retryLoop (dialOnce v w dest) (m + 1) last s
        = retryLoop (dialOnce v w dest) m e
            { conn := s.conn, invoked := s.invoked + 1,
              trace := s.trace ++ [Event.Dial v.meta.Address dest] } := by
      simp [retryLoop, hd]
    rw [hr, ih m e _ (by omega)]
    · simp only [Prod.mk.injEq, true_and]
      simp only [DialState.mk.injEq, true_and]
      exact ⟨by omega, by simp [List.replicate_succ]⟩
    · intro i hi
      have := hfail (i + 1) (by omega)
      simpa [Nat.add_assoc, Nat.add_comm 1 i] using this
    · have := hok
      simpa [Nat.add_assoc, Nat.add_comm 1 N] using this

/-- If the primitive fails at each of the `n` attempts, the retried dial fails after
`n` calls with the error of the last one, and captures no connection. -/
theorem retryLoop_dial_failure (v : FreedomConnection) (w : World) (dest : Destination)
    (err : Nat → String) :
    ∀ (n : Nat) (last : String) (s : DialState),
      (∀ i, i < n → w.Dial (s.invoked + i) v.meta.Address dest
        = Except.error (err (s.invoked + i))) →
      retryLoop (dialOnce v w dest) n last s =
        (some (if n = 0 then last else err (s.invoked + n - 1)),
          { conn := s.conn, invoked := s.invoked + n,
            trace := s.trace ++ List.replicate n (Event.Dial v.meta.Address dest) }) := by
  intro n
  induction n with
  | zero => intro last s _; simp [retryLoop]
  | succ n ih =>
    intro last s hfail
    have h0 := hfail 0 (by omega)
    have hd := dialOnce_error v w dest s (err s.invoked) (by simpa using h0)
    have hr : retryLoop (dialOnce v w dest) (n + 1) last s
        = retryLoop (dialOnce v w dest) n (err s.invoked)
            { conn := s.conn, invoked := s.invoked + 1,
              trace := s.trace ++ [Event.Dial v.meta.Address dest] } := by
      simp [retryLoop, hd]
    rw [hr, ih]
    · simp only [Prod.mk.injEq]
      refine ⟨?_, ?_⟩
      · by_cases hn : n = 0
        · subst hn; simp
        · simp only [hn, if_false, Nat.succ_ne_zero]
          congr 2
          omega
      · simp only [DialState.mk.injEq, true_and]
        exact ⟨by omega, by simp [List.replicate_succ]⟩
    · intro i hi
      have := hfail (i + 1) (by omega)
      simpa [Nat.add_assoc, Nat.add_comm 1 i] using this

/-! ## Lemmas: the shape of a run -/

theorem ResolveIP_quiet (v : FreedomConnection) (dice : Dice) (d : Destination) :
    ∀ e ∈ (ResolveIP v dice d).2, e.quiet = true := by
  unfold ResolveIP
  split
  · simp
  · split
    · simp
    · dsimp only
      split
      · intro e he
        simp at he
        rcases he with rfl | rfl <;> rfl
      · intro e he
        simp at he
        rcases he with rfl | rfl | rfl <;> rfl

theorem resolveStep_quiet (v : FreedomConnection) (w : World) (d : Destination) :
    ∀ e ∈ (resolveStep v w d).2, e.quiet = true := by
  unfold resolveStep
  split
  · exact ResolveIP_quiet v w.dice d
  · simp

theorem ResolveIP_preserves (v : FreedomConnection) (dice : Dice) (d r : Destination)
    (h : (ResolveIP v dice d).1 = Outcome.ok r) :
    (d.Network = Network.TCP ∨ d.Network = Network.UDP → r.Network = d.Network) ∧
      r.Port = d.Port := by
  unfold ResolveIP at h
  split at h
  · simp at h; subst h; exact ⟨fun _ => rfl, rfl⟩
  · split at h
    · simp at h
    · dsimp only at h
      split at h
      · simp at h; subst h; exact ⟨fun _ => rfl, rfl⟩
      · simp only [Outcome.ok.injEq] at h
        subst h
        cases hn : d.Network <;> simp [TCPDestination, UDPDestination]

theorem resolveStep_preserves (v : FreedomConnection) (w : World) (d r : Destination)
    (h : (resolveStep v w d).1 = Outcome.ok r) :
    (d.Network = Network.TCP ∨ d.Network = Network.UDP → r.Network = d.Network) ∧
      r.Port = d.Port := by
  unfold resolveStep at h
  split at h
  · exact ResolveIP_preserves v w.dice d r h
  · simp at h; subst h; exact ⟨fun _ => rfl, rfl⟩

theorem dialStep_shape (v : FreedomConnection) (w : World) (dest : Destination) :
    ∃ k, k ≤ 5 ∧
      (dialStep v w dest).2.trace = List.replicate k (Event.Dial v.meta.Address dest) ∧
      (dialStep v w dest).2.invoked = k ∧
      ((dialStep v w dest).1 = none →
        1 ≤ k ∧ ∃ c, (dialStep v w dest).2.conn = some c) ∧
      (∀ e, (dialStep v w dest).1 = some e →
        k = 5 ∧ (dialStep v w dest).2.conn = none) := by
  obtain ⟨k, hk, ht, hi, hok, herr⟩ :=
    retryLoop_dial_shape v w dest 5 "Retry: no attempt was made."
      { conn := none, invoked := 0, trace := [] }
  exact ⟨k, hk, by simpa [dialStep, ExponentialBackoffOn] using ht,
    by simpa [dialStep, ExponentialBackoffOn] using hi, hok, herr⟩

/-- When the dial step succeeds, the run is: opening log, resolution, between one and
five dial calls, the payload write if any, the `go` statement; then the downlink with
the deferred calls on the calling flow, and the uplink in the goroutine. -/
theorem Dispatch_of_dialed (v : FreedomConnection) (w : World) (d : Destination)
    (payload : Buffer) (dest : Destination) (conn : Conn)
    (h : dialed v w d = some (dest, conn)) :
    ∃ k, 1 ≤ k ∧ k ≤ 5 ∧ (resolveStep v w d).1 = Outcome.ok dest ∧
      Dispatch v w d payload =
        { pre := [Event.LogInfo "Freedom: Opening connection"] ++ (resolveStep v w d).2
                  ++ List.replicate k (Event.Dial v.meta.Address dest)
                  ++ (if !payload.IsEmpty then [Event.ConnWrite conn payload.Bytes] else [])
                  ++ [Event.GoUplink],
          post := downlinkBody v w dest conn,
          uplink := uplinkBody w conn } := by
  unfold dialed at h
  unfold Dispatch
  rcases hres : resolveStep v w d with ⟨r, evs⟩
  rw [hres] at h
  cases r with
  | panic msg => simp at h
  | ok d1 =>
    simp only at h ⊢
    obtain ⟨k, hk5, ht, _, hok, _⟩ := dialStep_shape v w d1
    rcases hdial : dialStep v w d1 with ⟨err, st⟩
    rw [hdial] at h ht hok
    cases err with
    | some e => simp at h
    | none =>
      simp only at h ⊢
      obtain ⟨hk1, c, hc⟩ := hok rfl
      simp only at hc ht
      rw [hc] at h
      simp only [Option.map_some', Option.some.injEq, Prod.mk.injEq] at h
      obtain ⟨rfl, rfl⟩ := h
      refine ⟨k, hk1, hk5, rfl, ?_⟩
      simp only [hc, ht]

/-- When the dial step does not succeed, the run is on the calling flow alone and ends
with the three deferred calls: either `ResolveIP` panicked, or all five dial attempts
failed. -/
theorem Dispatch_of_not_dialed (v : FreedomConnection) (w : World) (d : Destination)
    (payload : Buffer) (h : dialed v w d = none) :
    (∃ msg, (resolveStep v w d).1 = Outcome.panic msg ∧
      Dispatch v w d payload =
        { pre := [Event.LogInfo "Freedom: Opening connection"] ++ (resolveStep v w d).2
                  ++ deferredCalls,
          post := [], uplink := [] }) ∨
    (∃ dest, (resolveStep v w d).1 = Outcome.ok dest ∧
      Dispatch v w d payload =
        { pre := [Event.LogInfo "Freedom: Opening connection"] ++ (resolveStep v w d).2
                  ++ List.replicate 5 (Event.Dial v.meta.Address dest)
                  ++ [Event.LogWarning "Freedom: Failed to open connection"]
                  ++ deferredCalls,
          post := [], uplink := [] }) := by
  unfold dialed at h
  unfold Dispatch
  rcases hres : resolveStep v w d with ⟨r, evs⟩
  rw [hres] at h
  cases r with
  | panic msg => exact Or.inl ⟨msg, rfl, rfl⟩
  | ok d1 =>
    right
    simp only at h ⊢
    obtain ⟨k, _, ht, _, hok, herr⟩ := dialStep_shape v w d1
    rcases hdial : dialStep v w d1 with ⟨err, st⟩
    rw [hdial] at h ht hok herr
    cases err with
    | some e =>
      obtain ⟨rfl, _⟩ := herr e rfl
      simp only at ht
      exact ⟨d1, rfl, by simp only [ht]⟩
    | none =>
      obtain ⟨_, c, hc⟩ := hok rfl
      simp only at hc h
      rw [hc] at h
      simp at h

/-! ## Lemmas: counting calls in a run -/

theorem count_map_zero {α : Type} (e : Event) (f : α → Event) (l : List α)
    (hf : ∀ x, f x ≠ e) : (l.map f).count e = 0 := by
  apply List.count_eq_zero.mpr
  intro hmem
  obtain ⟨x, _, hx⟩ := List.mem_map.mp hmem
  exact hf x hx

theorem replicate_dial_quiet (k : Nat) (src : Address) (dest : Destination) :
    ∀ e ∈ List.replicate k (Event.Dial src dest), e.quiet = true := by
  intro e he
  rw [List.eq_of_mem_replicate he]
  rfl

theorem trace_count_of_dialed (v : FreedomConnection) (w : World) (d : Destination)
    (payload : Buffer) (schedule : List Bool) (dest : Destination) (conn : Conn)
    (h : dialed v w d = some (dest, conn)) (e : Event) (he : e.quiet = false) :
    ((Dispatch v w d payload).trace schedule).count e
      = (if !payload.IsEmpty then [Event.ConnWrite conn payload.Bytes] else []).count e
        + [Event.GoUplink].count e
        + (downlinkBody v w dest conn).count e
        + (uplinkBody w conn).count e := by
  obtain ⟨k, _, _, _, hD⟩ := Dispatch_of_dialed v w d payload dest conn h
  rw [hD]
  simp only [Run.trace, List.count_append, count_interleave]
  rw [count_quiet e he _ (resolveStep_quiet v w d),
    count_quiet e he _ (replicate_dial_quiet k _ _)]
  have : [Event.LogInfo "Freedom: Opening connection"].count e = 0 :=
    count_quiet e he _ (by intro x hx; simp at hx; subst hx; rfl)
  rw [this]
  omega

theorem trace_count_of_not_dialed (v : FreedomConnection) (w : World) (d : Destination)
    (payload : Buffer) (schedule : List Bool)
    (h : dialed v w d = none) (e : Event) (he : e.quiet = false) :
    ((Dispatch v w d payload).trace schedule).count e = deferredCalls.count e := by
  have h0 : [Event.LogInfo "Freedom: Opening connection"].count e = 0 :=
    count_quiet e he _ (by intro x hx; simp at hx; subst hx; rfl)
  have h1 : [Event.LogWarning "Freedom: Failed to open connection"].count e = 0 :=
    count_quiet e he _ (by intro x hx; simp at hx; subst hx; rfl)
  rcases Dispatch_of_not_dialed v w d payload h with ⟨msg, _, hD⟩ | ⟨dest, _, hD⟩
  · rw [hD]
    simp only [Run.trace, List.count_append, count_interleave]
    rw [count_quiet e he _ (resolveStep_quiet v w d), h0]
    simp
  · rw [hD]
    simp only [Run.trace, List.count_append, count_interleave]
    rw [count_quiet e he _ (resolveStep_quiet v w d),
      count_quiet e he _ (replicate_dial_quiet 5 _ _), h0, h1]
    simp

theorem downlinkBody_counts (v : FreedomConnection) (w : World) (dest : Destination)
    (conn : Conn) :
    (downlinkBody v w dest conn).count Event.OutputClose = 2 ∧
    (downlinkBody v w dest conn).count Event.InputRelease = 1 ∧
    (downlinkBody v w dest conn).count Event.PayloadRelease = 1 ∧
    ∀ c, (downlinkBody v w dest conn).count (Event.ConnClose c) = if c = conn then 1 else 0 := by
  unfold downlinkBody deferredCalls
  refine ⟨?_, ?_, ?_, ?_⟩
  · cases w.downlinkErr <;>
      simp [List.count_append, List.count_cons, count_map_zero]
  · cases w.downlinkErr <;>
      simp [List.count_append, List.count_cons, count_map_zero]
  · cases w.downlinkErr <;>
      simp [List.count_append, List.count_cons, count_map_zero]
  · intro c
    by_cases hc : c = conn
    · subst hc
      cases w.downlinkErr <;>
        simp [List.count_append, List.count_cons, count_map_zero]
    · have hc1 : ¬ conn = c := fun h => hc h.symm
      cases w.downlinkErr <;>
        simp [List.count_append, List.count_cons, count_map_zero, hc, hc1]

theorem uplinkBody_counts (w : World) (conn : Conn) :
    (uplinkBody w conn).count Event.OutputClose = 0 ∧
    (uplinkBody w conn).count Event.InputRelease = 0 ∧
    (uplinkBody w conn).count Event.PayloadRelease = 0 ∧
    ∀ c, (uplinkBody w conn).count (Event.ConnClose c) = 0 := by
  unfold uplinkBody
  refine ⟨?_, ?_, ?_, ?_⟩
  · cases w.uplinkErr <;> cases conn.rawTCP <;>
      simp [List.count_append, List.count_cons, count_map_zero]
  · cases w.uplinkErr <;> cases conn.rawTCP <;>
      simp [List.count_append, List.count_cons, count_map_zero]
  · cases w.uplinkErr <;> cases conn.rawTCP <;>
      simp [List.count_append, List.count_cons, count_map_zero]
  · intro c
    cases w.uplinkErr <;> cases conn.rawTCP <;>
      simp [List.count_append, List.count_cons, count_map_zero]

theorem write_counts (payload : Buffer) (conn : Conn) (e : Event)
    (he : ∀ c bytes, e ≠ Event.ConnWrite c bytes) :
    (if !payload.IsEmpty then [Event.ConnWrite conn payload.Bytes] else []).count e = 0 := by
  split
  · apply List.count_eq_zero.mpr
    intro hmem
    simp at hmem
    exact he _ _ hmem
  · rfl

/-! ## Lemmas: what a run contains -/

theorem mem_trace_of_dialed (v : FreedomConnection) (w : World) (d : Destination)
    (payload : Buffer) (schedule : List Bool) (dest : Destination) (conn : Conn)
    (h : dialed v w d = some (dest, conn)) (e : Event) (he : e.quiet = false) :
    e ∈ (Dispatch v w d payload).trace schedule ↔
      e ∈ (if !payload.IsEmpty then [Event.ConnWrite conn payload.Bytes] else [])
        ∨ e = Event.GoUplink ∨ e ∈ downlinkBody v w dest conn ∨ e ∈ uplinkBody w conn := by
  rw [← List.count_pos_iff, trace_count_of_dialed v w d payload schedule dest conn h e he]
  simp only [Nat.add_pos_iff_pos_or_pos, List.count_pos_iff, List.mem_singleton, or_assoc]

theorem downlinkBody_calm (v : FreedomConnection) (w : World) (dest : Destination)
    (conn : Conn) : ∀ e ∈ downlinkBody v w dest conn, e.lookupOrDial = false := by
  unfold downlinkBody deferredCalls
  cases w.downlinkErr <;>
    simp only [List.forall_mem_append, List.forall_mem_map, List.forall_mem_cons,
      Event.lookupOrDial] <;> simp

theorem uplinkBody_calm (w : World) (conn : Conn) :
    ∀ e ∈ uplinkBody w conn, e.lookupOrDial = false := by
  unfold uplinkBody
  cases w.uplinkErr <;> cases conn.rawTCP <;>
    simp only [List.forall_mem_append, List.forall_mem_map, List.forall_mem_cons,
      Event.lookupOrDial] <;> simp

theorem dialedDestinations_append (a b : List Event) :
    dialedDestinations (a ++ b) = dialedDestinations a ++ dialedDestinations b := by
  induction a with
  | nil => rfl
  | cons e a ih => cases e <;> simp [dialedDestinations, ih]

theorem dialedDestinations_replicate (k : Nat) (src : Address) (dest : Destination) :
    dialedDestinations (List.replicate k (Event.Dial src dest)) = List.replicate k dest := by
  induction k with
  | zero => rfl
  | succ k ih => simp [List.replicate_succ, dialedDestinations, ih]

theorem dialedDestinations_calm (l : List Event)
    (hl : ∀ e ∈ l, e.lookupOrDial = false) : dialedDestinations l = [] := by
  induction l with
  | nil => rfl
  | cons e l ih =>
    have he := hl e (List.mem_cons_self e l)
    have hl1 : ∀ x ∈ l, x.lookupOrDial = false := fun x hx => hl x (List.mem_cons_of_mem e hx)
    cases e <;> simp [Event.lookupOrDial] at he <;> simp [dialedDestinations, ih hl1]

theorem ResolveIP_no_dial (v : FreedomConnection) (dice : Dice) (d : Destination) :
    dialedDestinations (ResolveIP v dice d).2 = [] := by
  unfold ResolveIP
  split
  · rfl
  · split
    · rfl
    · dsimp only
      split <;> rfl

theorem resolveStep_no_dial (v : FreedomConnection) (w : World) (d : Destination) :
    dialedDestinations (resolveStep v w d).2 = [] := by
  unfold resolveStep
  split
  · exact ResolveIP_no_dial v w.dice d
  · rfl

/-- Every run, under every schedule, is: the opening log, the calls of the resolution
step, the dial calls (none if resolution panicked, otherwise between one and five, all
for the resolved destination), and then calls none of which goes to the DNS server,
the dice or the dial primitive. -/
theorem Dispatch_trace_split (v : FreedomConnection) (w : World) (d : Destination)
    (payload : Buffer) (schedule : List Bool) :
    ∃ dials rest,
      (Dispatch v w d payload).trace schedule
        = Event.LogInfo "Freedom: Opening connection" :: (resolveStep v w d).2 ++ dials ++ rest ∧
      (∀ e ∈ rest, e.lookupOrDial = false) ∧
      ((∃ msg, (resolveStep v w d).1 = Outcome.panic msg ∧ dials = []) ∨
       (∃ dest k, (resolveStep v w d).1 = Outcome.ok dest ∧ 1 ≤ k ∧ k ≤ 5 ∧
          dials = List.replicate k (Event.Dial v.meta.Address dest))) := by
  cases h : dialed v w d with
  | none =>
    rcases Dispatch_of_not_dialed v w d payload h with ⟨msg, hres, hD⟩ | ⟨dest, hres, hD⟩
    · refine ⟨[], deferredCalls, ?_, by simp [deferredCalls, Event.lookupOrDial],
        Or.inl ⟨msg, hres, rfl⟩⟩
      rw [hD]; simp [Run.trace, interleave]
    · refine ⟨List.replicate 5 (Event.Dial v.meta.Address dest),
        [Event.LogWarning "Freedom: Failed to open connection"] ++ deferredCalls, ?_,
        by simp [deferredCalls, Event.lookupOrDial],
        Or.inr ⟨dest, 5, hres, by omega, le_refl 5, rfl⟩⟩
      rw [hD]; simp [Run.trace, interleave]
  | some p =>
    obtain ⟨dest, conn⟩ := p
    obtain ⟨k, hk1, hk5, hres, hD⟩ := Dispatch_of_dialed v w d payload dest conn h
    refine ⟨List.replicate k (Event.Dial v.meta.Address dest),
      (if !payload.IsEmpty then [Event.ConnWrite conn payload.Bytes] else [])
        ++ [Event.GoUplink]
        ++ interleave schedule (downlinkBody v w dest conn) (uplinkBody w conn), ?_, ?_,
      Or.inr ⟨dest, k, hres, hk1, hk5, rfl⟩⟩
    · rw [hD]; simp [Run.trace]
    · intro e he
      simp only [List.mem_append, mem_interleave, List.mem_singleton] at he
      rcases he with (he | he) | he | he
      · split at he
        · simp at he; subst he; rfl
        · simp at he
      · subst he; rfl
      · exact downlinkBody_calm v w dest conn e he
      · exact uplinkBody_calm w conn e he

theorem calm_not_lookup (e : Event) (he : e.lookupOrDial = false) :
    (∀ name, e ≠ Event.DnsGet name) ∧ (∀ n, e ≠ Event.DiceRoll n) := by
  cases e <;> simp [Event.lookupOrDial] at he <;> simp

theorem resolveStep_of_resolving (v : FreedomConnection) (w : World) (d : Destination)
    (h : v.domainStrategy = Config_DomainStrategy.USE_IP ∧
      d.Address.Family = AddressFamily.Domain) :
    resolveStep v w d = ResolveIP v w.dice d := by
  unfold resolveStep
  simp [h.1, h.2, AddressFamily.IsDomain]

theorem resolveStep_of_not_resolving (v : FreedomConnection) (w : World) (d : Destination)
    (h : ¬ (v.domainStrategy = Config_DomainStrategy.USE_IP ∧
      d.Address.Family = AddressFamily.Domain)) :
    resolveStep v w d = (Outcome.ok d, []) := by
  unfold resolveStep
  have : (v.domainStrategy = Config_DomainStrategy.USE_IP
      && d.Address.Family.IsDomain) = false := by
    cases hs : v.domainStrategy <;> cases hf : d.Address.Family <;>
      simp_all [AddressFamily.IsDomain]
  simp [this]

theorem dialedDestinations_trace (v : FreedomConnection) (w : World) (d : Destination)
    (payload : Buffer) (schedule : List Bool) :
    (∀ msg, (resolveStep v w d).1 = Outcome.panic msg →
      dialedDestinations ((Dispatch v w d payload).trace schedule) = []) ∧
    (∀ dest, (resolveStep v w d).1 = Outcome.ok dest →
      ∃ k, 1 ≤ k ∧ k ≤ 5 ∧
        dialedDestinations ((Dispatch v w d payload).trace schedule)
          = List.replicate k dest) := by
  obtain ⟨dials, rest, ht, hrest, hcase⟩ := Dispatch_trace_split v w d payload schedule
  have hdd : dialedDestinations ((Dispatch v w d payload).trace schedule)
      = dialedDestinations dials := by
    rw [ht]
    have : Event.LogInfo "Freedom: Opening connection" :: (resolveStep v w d).2 ++ dials ++ rest
        = [Event.LogInfo "Freedom: Opening connection"] ++ (resolveStep v w d).2 ++ dials
            ++ rest := rfl
    rw [this, dialedDestinations_append, dialedDestinations_append, dialedDestinations_append,
      resolveStep_no_dial, dialedDestinations_calm rest hrest]
    simp [dialedDestinations]
  rcases hcase with ⟨msg, hp, hdials⟩ | ⟨dest, k, hok, hk1, hk5, hdials⟩
  · refine ⟨fun _ _ => by rw [hdd, hdials]; rfl, ?_⟩
    intro dest hd
    rw [hp] at hd
    cases hd
  · refine ⟨?_, ?_⟩
    · intro msg hm
      rw [hok] at hm
      cases hm
    · intro dest1 hd
      rw [hok] at hd
      cases hd
      exact ⟨k, hk1, hk5, by rw [hdd, hdials, dialedDestinations_replicate]⟩

theorem downlinkBody_no_write (v : FreedomConnection) (w : World) (dest : Destination)
    (conn c : Conn) : ∀ x ∈ downlinkBody v w dest conn, connWrites c [x] = [] := by
  unfold downlinkBody deferredCalls
  cases w.downlinkErr <;>
    simp only [List.forall_mem_append, List.forall_mem_map, List.forall_mem_cons,
      connWrites] <;> simp

theorem connWrites_uplinkBody (w : World) (conn : Conn) :
    connWrites conn (uplinkBody w conn) = w.uplink := by
  unfold uplinkBody
  rw [connWrites_append, connWrites_append, connWrites_append, connWrites_map]
  cases w.uplinkErr <;> cases conn.rawTCP <;> simp [connWrites]

/-! ## Properties of ResolveIP -/

/-- C1, as stated, fails: a domain destination whose network is `RawTCP`, with a
non-empty DNS answer, resolves to a UDP destination (the `else` branch of lines 61-65),
so the network of the result is not the network of the input. -/
theorem ResolveIP_RawTCP_becomes_UDP :
    exampleRawDomain.Address = Address.domain "example.test" ∧
    exampleServer.Get "example.test" ≠ [] ∧
    (ResolveIP exampleHandler exampleDice exampleRawDomain).1
      = Outcome.ok (UDPDestination (IPAddress (IP.v4 167772162)) 80) ∧
    ¬ ∃ r, (ResolveIP exampleHandler exampleDice exampleRawDomain).1 = Outcome.ok r ∧
        r.Network = exampleRawDomain.Network := by
  refine ⟨rfl, by decide, by decide, ?_⟩
  rintro ⟨r, hr, hn⟩
  have h : (ResolveIP exampleHandler exampleDice exampleRawDomain).1
      = Outcome.ok (UDPDestination (IPAddress (IP.v4 167772162)) 80) := by decide
  rw [h] at hr
  cases hr
  cases hn

/-- C1, amended: for a domain destination whose DNS answer is non-empty, whatever index
the dice picks, `ResolveIP` returns a destination whose address is one of the answers
and whose port is that of the input; its network is TCP when the input's is TCP and UDP
otherwise, so it equals the input's network exactly when that is TCP or UDP. -/
theorem ResolveIP_picks_answer (v : FreedomConnection) (dice : Dice) (d : Destination)
    (name : String) (srv : Server)
    (hd : d.Address = Address.domain name) (hs : v.dns = some srv)
    (hne : srv.Get name ≠ []) :
    ∃ r ip, (ResolveIP v dice d).1 = Outcome.ok r ∧ ip ∈ srv.Get name ∧
      r.Address = IPAddress ip ∧ r.Port = d.Port ∧
      r.Network = (if d.Network = Network.TCP then Network.TCP else Network.UDP) ∧
      (r.Network = d.Network ↔ (d.Network = Network.TCP ∨ d.Network = Network.UDP)) := by
  have hlen : ¬ (srv.Get name).length = 0 := by
    intro h0; exact hne (List.length_eq_zero.mp h0)
  obtain ⟨net, addr, port⟩ := d
  simp only at hd
  subst hd
  unfold ResolveIP
  simp only [Address.Family, AddressFamily.IsDomain, Bool.not_true, Bool.false_eq_true,
    if_false, hs, Address.Domain]
  rw [dif_neg hlen]
  cases net
  · exact ⟨_, _, rfl, List.get_mem _ _ _, rfl, rfl, rfl, by simp [UDPDestination]⟩
  · exact ⟨_, _, rfl, List.get_mem _ _ _, rfl, rfl, rfl, by simp [TCPDestination]⟩
  · exact ⟨_, _, rfl, List.get_mem _ _ _, rfl, rfl, rfl, by simp [UDPDestination]⟩

theorem ResolveIP_picks_answer_witness :
    exampleDomain.Address = Address.domain "example.test" ∧
    exampleHandler.dns = some exampleServer ∧
    exampleServer.Get "example.test" ≠ [] ∧
    ∃ r ip, (ResolveIP exampleHandler exampleDice exampleDomain).1 = Outcome.ok r ∧
      ip ∈ exampleServer.Get "example.test" ∧
      r.Address = IPAddress ip ∧ r.Port = exampleDomain.Port ∧
      r.Network
        = (if exampleDomain.Network = Network.TCP then Network.TCP else Network.UDP) ∧
      (r.Network = exampleDomain.Network ↔
        (exampleDomain.Network = Network.TCP ∨ exampleDomain.Network = Network.UDP)) :=
  ⟨rfl, rfl, by decide,
    ResolveIP_picks_answer exampleHandler exampleDice exampleDomain "example.test"
      exampleServer rfl rfl (by decide)⟩

/-- C2: for a destination whose address family is not Domain, `ResolveIP` returns the
destination itself and makes no call at all, so none to the DNS server (which may even
be nil). -/
theorem ResolveIP_not_domain (v : FreedomConnection) (dice : Dice) (d : Destination)
    (h : d.Address.Family ≠ AddressFamily.Domain) :
    ResolveIP v dice d = (Outcome.ok d, []) ∧
      ∀ name, Event.DnsGet name ∉ (ResolveIP v dice d).2 := by
  have hnd : d.Address.Family.IsDomain = false := by
    cases hf : d.Address.Family <;> simp_all [AddressFamily.IsDomain]
  have : ResolveIP v dice d = (Outcome.ok d, []) := by
    unfold ResolveIP
    simp [hnd]
  exact ⟨this, by simp [this]⟩

theorem ResolveIP_not_domain_witness :
    exampleIPDestination.Address.Family ≠ AddressFamily.Domain ∧
    ResolveIP exampleHandler exampleDice exampleIPDestination
      = (Outcome.ok exampleIPDestination, []) ∧
    ∀ name, Event.DnsGet name ∉ (ResolveIP exampleHandler exampleDice exampleIPDestination).2 :=
  ⟨by decide, ResolveIP_not_domain exampleHandler exampleDice exampleIPDestination (by decide)⟩

/-- C3: for a domain destination whose DNS answer is empty, `ResolveIP` returns the
original destination (it does not fail), after one DNS query and no dice roll. -/
theorem ResolveIP_empty_answer (v : FreedomConnection) (dice : Dice) (d : Destination)
    (name : String) (srv : Server)
    (hd : d.Address = Address.domain name) (hs : v.dns = some srv)
    (hempty : srv.Get name = []) :
    (ResolveIP v dice d).1 = Outcome.ok d ∧
      (ResolveIP v dice d).2 =
        [Event.DnsGet name,
         Event.LogInfo "Freedom: DNS returns nil answer. Keep domain as is."] := by
  unfold ResolveIP
  simp [hd, Address.Family, AddressFamily.IsDomain, hs, Address.Domain, hempty]

theorem ResolveIP_empty_answer_witness :
    exampleUnknownDomain.Address = Address.domain "nx.test" ∧
    exampleHandler.dns = some exampleServer ∧
    exampleServer.Get "nx.test" = [] ∧
    (ResolveIP exampleHandler exampleDice exampleUnknownDomain).1
      = Outcome.ok exampleUnknownDomain ∧
    (ResolveIP exampleHandler exampleDice exampleUnknownDomain).2 =
      [Event.DnsGet "nx.test",
       Event.LogInfo "Freedom: DNS returns nil answer. Keep domain as is."] :=
  ⟨rfl, rfl, by decide,
    ResolveIP_empty_answer exampleHandler exampleDice exampleUnknownDomain "nx.test"
      exampleServer rfl rfl (by decide)⟩

/-! ## Properties of construction -/

/-- C7, as stated, fails: with strategy USE_IP and no DNS server in the space,
`FreedomFactory.Create` returns a handler and a nil error. -/
theorem Create_no_dns_returns_no_error :
    (Create { dnsApp := none }
        { DomainStrategy := Config_DomainStrategy.USE_IP, Timeout := 0 } exampleMeta).err
      = none ∧
    ¬ (Create { dnsApp := none }
        { DomainStrategy := Config_DomainStrategy.USE_IP, Timeout := 0 } exampleMeta).err
      ≠ none :=
  ⟨rfl, fun h => h rfl⟩

/-- C7, amended: the constructor and `Create` never report an error; `Create` returns
the handler built from the configuration (no DNS server in it yet), with a nil error.
The configuration error comes from the callback the constructor registers with the
space.  Run against a space and the handler, the callback: with strategy AS_IS returns
nil and leaves the handler exactly as it is, whether or not a DNS server is available;
with strategy USE_IP and no application under the DNS id returns the error "DNS server
is not found" and leaves the handler as it is; with strategy USE_IP and a DNS server
returns nil and stores that server in the handler, changing nothing else; with strategy
USE_IP and an application of another type panics at the type assertion.  So it returns
an error exactly when the strategy is USE_IP and the space has no DNS application. -/
theorem Create_defers_dns_check (space : Space) (config : Config)
    (meta : OutboundHandlerMeta) :
    (Create space config meta).err = none ∧
    (Create space config meta).handler.domainStrategy = config.DomainStrategy ∧
    (Create space config meta).handler.timeout = config.Timeout ∧
    (Create space config meta).handler.dns.isNone = true ∧
    (Create space config meta).handler.meta = meta ∧
    (∀ (spaceNow : Space) (f : FreedomConnection),
      (config.DomainStrategy = Config_DomainStrategy.AS_IS →
        (Create space config meta).registered spaceNow f = Outcome.ok (none, f)) ∧
      (config.DomainStrategy = Config_DomainStrategy.USE_IP → spaceNow.dnsApp = none →
        (Create space config meta).registered spaceNow f
          = Outcome.ok (some "Freedom: DNS server is not found in the space.", f)) ∧
      (config.DomainStrategy = Config_DomainStrategy.USE_IP →
        ∀ srv, spaceNow.dnsApp = some (App.dnsServer srv) →
          (Create space config meta).registered spaceNow f
            = Outcome.ok (none,
                { domainStrategy := f.domainStrategy, timeout := f.timeout,
                  dns := some srv, meta := f.meta })) ∧
      (config.DomainStrategy = Config_DomainStrategy.USE_IP →
        spaceNow.dnsApp = some App.other →
          ∃ msg, (Create space config meta).registered spaceNow f = Outcome.panic msg) ∧
      ((∃ e g, (Create space config meta).registered spaceNow f = Outcome.ok (some e, g)) ↔
        (config.DomainStrategy = Config_DomainStrategy.USE_IP ∧ spaceNow.dnsApp = none))) := by
  refine ⟨rfl, rfl, rfl, rfl, rfl, ?_⟩
  intro spaceNow f
  refine ⟨?_, ?_, ?_, ?_, ?_⟩
  · intro hs
    simp [Create, NewFreedomConnection, hs]
  · intro hs hd
    simp [Create, NewFreedomConnection, hs, hd, Space.HasApp]
  · intro hs srv hd
    simp [Create, NewFreedomConnection, hs, hd, Space.HasApp, Space.GetApp]
  · intro hs hd
    exact ⟨"interface conversion: not a dns.Server",
      by simp [Create, NewFreedomConnection, hs, hd, Space.HasApp, Space.GetApp]⟩
  · cases hs : config.DomainStrategy
    · simp [Create, NewFreedomConnection, hs]
    · rcases hd : spaceNow.dnsApp with _ | app
      · simp [Create, NewFreedomConnection, hs, hd, Space.HasApp]
      · cases app <;>
          simp [Create, NewFreedomConnection, hs, hd, Space.HasApp, Space.GetApp]

theorem Create_defers_dns_check_witness :
    (Create { dnsApp := none }
        { DomainStrategy := Config_DomainStrategy.USE_IP, Timeout := 0 } exampleMeta).err
      = none ∧
    (Create { dnsApp := none }
        { DomainStrategy := Config_DomainStrategy.USE_IP, Timeout := 0 }
        exampleMeta).registered { dnsApp := none } exampleAsIsHandler
      = Outcome.ok (some "Freedom: DNS server is not found in the space.", exampleAsIsHandler) ∧
    (Create { dnsApp := none }
        { DomainStrategy := Config_DomainStrategy.AS_IS, Timeout := 0 }
        exampleMeta).registered { dnsApp := none } exampleHandler
      = Outcome.ok (none, exampleHandler) :=
  ⟨(Create_defers_dns_check { dnsApp := none }
      { DomainStrategy := Config_DomainStrategy.USE_IP, Timeout := 0 } exampleMeta).1,
   ((Create_defers_dns_check { dnsApp := none }
      { DomainStrategy := Config_DomainStrategy.USE_IP, Timeout := 0 }
      exampleMeta).2.2.2.2.2 { dnsApp := none } exampleAsIsHandler).2.1 rfl rfl,
   ((Create_defers_dns_check { dnsApp := none }
      { DomainStrategy := Config_DomainStrategy.AS_IS, Timeout := 0 }
      exampleMeta).2.2.2.2.2 { dnsApp := none } exampleHandler).1 rfl⟩

/-! ## Dispatch: release of resources -/

/-- C5, as stated, fails: on a run whose dial succeeds, `Close` of the outbound output
stream is called twice (line 129, and the deferred call of line 75), not once. -/
theorem Dispatch_closes_output_twice :
    ((Dispatch exampleHandler exampleWorld exampleDomain examplePayload).trace []).count
        Event.OutputClose = 2 ∧
    ¬ ((Dispatch exampleHandler exampleWorld exampleDomain examplePayload).trace []).count
        Event.OutputClose = 1 := by
  decide

/-- C5, amended: on every run and under every schedule, `Close` of the outbound output
stream is called once when the dial step does not succeed, and twice when it does
(whether the downlink pipe ends cleanly or with an error). -/
theorem Dispatch_output_close_count (v : FreedomConnection) (w : World) (d : Destination)
    (payload : Buffer) (schedule : List Bool) :
    ((Dispatch v w d payload).trace schedule).count Event.OutputClose
      = if (dialed v w d).isSome then 2 else 1 := by
  cases h : dialed v w d with
  | none =>
    rw [trace_count_of_not_dialed v w d payload schedule h Event.OutputClose rfl]
    rfl
  | some p =>
    obtain ⟨dest, conn⟩ := p
    rw [trace_count_of_dialed v w d payload schedule dest conn h Event.OutputClose rfl,
      (downlinkBody_counts v w dest conn).1, (uplinkBody_counts w conn).1,
      write_counts payload conn _ (by intro c b hcb; cases hcb)]
    rfl

/-- C6: on every run and under every schedule, the payload is released exactly once
and the inbound stream is released exactly once; the connection the dial step obtained
is closed exactly once, and no other is ever closed (so on dial failure, where no
connection exists, none is closed, while the payload and both streams are still
released). -/
theorem Dispatch_releases_once (v : FreedomConnection) (w : World) (d : Destination)
    (payload : Buffer) (schedule : List Bool) :
    ((Dispatch v w d payload).trace schedule).count Event.PayloadRelease = 1 ∧
    ((Dispatch v w d payload).trace schedule).count Event.InputRelease = 1 ∧
    (∀ c, ((Dispatch v w d payload).trace schedule).count (Event.ConnClose c)
      = if (dialed v w d).map Prod.snd = some c then 1 else 0) ∧
    1 ≤ ((Dispatch v w d payload).trace schedule).count Event.OutputClose := by
  cases h : dialed v w d with
  | none =>
    refine ⟨?_, ?_, ?_, ?_⟩
    · rw [trace_count_of_not_dialed v w d payload schedule h Event.PayloadRelease rfl]; rfl
    · rw [trace_count_of_not_dialed v w d payload schedule h Event.InputRelease rfl]; rfl
    · intro c
      rw [trace_count_of_not_dialed v w d payload schedule h (Event.ConnClose c) rfl]
      simp [deferredCalls]
    · rw [trace_count_of_not_dialed v w d payload schedule h Event.OutputClose rfl]; decide
  | some p =>
    obtain ⟨dest, conn⟩ := p
    obtain ⟨_, hdi, hdp, hdc⟩ := downlinkBody_counts v w dest conn
    obtain ⟨_, hui, hup, huc⟩ := uplinkBody_counts w conn
    refine ⟨?_, ?_, ?_, ?_⟩
    · rw [trace_count_of_dialed v w d payload schedule dest conn h Event.PayloadRelease rfl,
        hdp, hup, write_counts payload conn _ (by intro c b hcb; cases hcb)]
      rfl
    · rw [trace_count_of_dialed v w d payload schedule dest conn h Event.InputRelease rfl,
        hdi, hui, write_counts payload conn _ (by intro c b hcb; cases hcb)]
      rfl
    · intro c
      rw [trace_count_of_dialed v w d payload schedule dest conn h (Event.ConnClose c) rfl,
        hdc c, huc c, write_counts payload conn _ (by intro c b hcb; cases hcb)]
      by_cases hc : c = conn
      · subst hc; simp
      · have hc1 : ¬ conn = c := fun h => hc h.symm
        simp [hc, hc1]
    · rw [trace_count_of_dialed v w d payload schedule dest conn h Event.OutputClose rfl,
        (downlinkBody_counts v w dest conn).1]
      omega

/-! ## Dispatch: the downlink reader -/

/-- C4: on a run whose dial succeeds with connection `conn`, the downlink reads from
exactly one reader: for a UDP destination a timeout reader of 16 seconds whatever the
configured timeout; for a TCP destination a timeout reader of the configured timeout
when that is positive, and the connection itself, with no timeout reader, when it
is 0. -/
theorem Dispatch_reader_timeout (v : FreedomConnection) (w : World) (d : Destination)
    (payload : Buffer) (schedule : List Bool) (dest : Destination) (conn : Conn)
    (h : dialed v w d = some (dest, conn)) :
    (d.Network = Network.UDP →
      ∀ r, Event.NewAdaptiveReader r ∈ (Dispatch v w d payload).trace schedule
        ↔ r = Reader.timeOut 16 conn) ∧
    (d.Network = Network.TCP → 0 < v.timeout →
      ∀ r, Event.NewAdaptiveReader r ∈ (Dispatch v w d payload).trace schedule
        ↔ r = Reader.timeOut v.timeout conn) ∧
    (d.Network = Network.TCP → v.timeout = 0 →
      ∀ r, Event.NewAdaptiveReader r ∈ (Dispatch v w d payload).trace schedule
        ↔ r = Reader.direct conn) := by
  have key : ∀ r, Event.NewAdaptiveReader r ∈ (Dispatch v w d payload).trace schedule
      ↔ r = chooseReader v dest conn := by
    intro r
    rw [mem_trace_of_dialed v w d payload schedule dest conn h (Event.NewAdaptiveReader r) rfl]
    unfold downlinkBody uplinkBody deferredCalls
    cases w.downlinkErr <;> cases w.uplinkErr <;> cases conn.rawTCP <;>
      cases payload.IsEmpty <;> simp
  obtain ⟨k, _, _, hres, _⟩ := Dispatch_of_dialed v w d payload dest conn h
  have hnet : d.Network = Network.TCP ∨ d.Network = Network.UDP → dest.Network = d.Network :=
    (resolveStep_preserves v w d dest hres).1
  refine ⟨?_, ?_, ?_⟩
  · intro hu r
    rw [key r]
    simp [chooseReader, effectiveTimeout, hnet (Or.inr hu), hu]
  · intro ht hpos r
    rw [key r]
    simp [chooseReader, effectiveTimeout, hnet (Or.inl ht), ht, hpos]
  · intro ht hz r
    rw [key r]
    simp [chooseReader, effectiveTimeout, hnet (Or.inl ht), ht, hz]

theorem Dispatch_reader_timeout_witness :
    dialed exampleAsIsHandler exampleWorld exampleUnknownDomain
      = some (exampleUnknownDomain, exampleConn) ∧
    exampleUnknownDomain.Network = Network.UDP ∧
    exampleAsIsHandler.timeout = 30 ∧
    ∀ r, Event.NewAdaptiveReader r
        ∈ (Dispatch exampleAsIsHandler exampleWorld exampleUnknownDomain examplePayload).trace
            [true, false]
      ↔ r = Reader.timeOut 16 exampleConn :=
  ⟨by decide, rfl, rfl,
    (Dispatch_reader_timeout exampleAsIsHandler exampleWorld exampleUnknownDomain
      examplePayload [true, false] exampleUnknownDomain exampleConn (by decide)).1 rfl⟩

/-! ## Dispatch: dial with retry -/

/-- C8: the dial step of `Dispatch` makes up to 5 attempts.  If the primitive fails
`N ≤ 4` times and then succeeds, the step succeeds with that connection after exactly
`N + 1` invocations, and `Dispatch` goes on with it.  If the primitive fails at all of
the five attempts, the step fails after exactly 5 invocations with the error of the
last one, and `Dispatch` returns after the warning and the deferred calls, with no
write to a connection, no goroutine and no downlink. -/
theorem Dispatch_dial_retry (v : FreedomConnection) (w : World) (dest : Destination) :
    (∀ N c, N ≤ 4 →
      (∀ i, i < N → ∃ e, w.Dial i v.meta.Address dest = Except.error e) →
      w.Dial N v.meta.Address dest = Except.ok c →
      (dialStep v w dest).1 = none ∧
      (dialStep v w dest).2.conn = some c ∧
      (dialStep v w dest).2.invoked = N + 1 ∧
      (dialStep v w dest).2.trace = List.replicate (N + 1) (Event.Dial v.meta.Address dest) ∧
      ∀ d, (resolveStep v w d).1 = Outcome.ok dest → dialed v w d = some (dest, c)) ∧
    (∀ err : Nat → String,
      (∀ i, i < 5 → w.Dial i v.meta.Address dest = Except.error (err i)) →
      (dialStep v w dest).1 = some (err 4) ∧
      (dialStep v w dest).2.conn = none ∧
      (dialStep v w dest).2.invoked = 5 ∧
      (dialStep v w dest).2.trace = List.replicate 5 (Event.Dial v.meta.Address dest) ∧
      ∀ d payload, (resolveStep v w d).1 = Outcome.ok dest →
        Dispatch v w d payload =
          { pre := [Event.LogInfo "Freedom: Opening connection"] ++ (resolveStep v w d).2
                    ++ List.replicate 5 (Event.Dial v.meta.Address dest)
                    ++ [Event.LogWarning "Freedom: Failed to open connection"]
                    ++ deferredCalls,
            post := [], uplink := [] }) := by
  constructor
  · intro N c hN hfail hok
    have hstep : dialStep v w dest =
        (none, { conn := some c, invoked := 0 + (N + 1),
                 trace := [] ++ List.replicate (N + 1) (Event.Dial v.meta.Address dest) }) :=
      retryLoop_dial_success v w dest c N 5 "Retry: no attempt was made."
        { conn := none, invoked := 0, trace := [] } (by omega)
        (by intro i hi; simpa using hfail i hi) (by simpa using hok)
    refine ⟨by rw [hstep], by rw [hstep], by rw [hstep]; simp, by rw [hstep]; simp, ?_⟩
    intro d hres
    unfold dialed
    rcases hr : resolveStep v w d with ⟨r, evs⟩
    rw [hr] at hres
    simp only at hres
    subst hres
    simp only [hstep, Option.map_some']
  · intro err hfail
    have hstep : dialStep v w dest =
        (some (if 5 = 0 then "Retry: no attempt was made." else err (0 + 5 - 1)),
          { conn := none, invoked := 0 + 5,
            trace := [] ++ List.replicate 5 (Event.Dial v.meta.Address dest) }) :=
      retryLoop_dial_failure v w dest err 5 "Retry: no attempt was made."
        { conn := none, invoked := 0, trace := [] }
        (by intro i hi; simpa using hfail i hi)
    refine ⟨by rw [hstep]; simp, by rw [hstep], by rw [hstep], by rw [hstep]; simp, ?_⟩
    intro d payload hres
    unfold Dispatch
    rcases hr : resolveStep v w d with ⟨r, evs⟩
    rw [hr] at hres
    simp only at hres
    subst hres
    simp only [hstep]
    simp

theorem Dispatch_dial_retry_witness :
    ((dialStep exampleHandler exampleWorld exampleIPDestination).1 = none ∧
     (dialStep exampleHandler exampleWorld exampleIPDestination).2.conn = some exampleConn ∧
     (dialStep exampleHandler exampleWorld exampleIPDestination).2.invoked = 2 + 1) ∧
    ((dialStep exampleHandler exampleDeadWorld exampleIPDestination).1 = some "unreachable" ∧
     (dialStep exampleHandler exampleDeadWorld exampleIPDestination).2.invoked = 5 ∧
     (Dispatch exampleHandler exampleDeadWorld exampleIPDestination examplePayload).post = []) :=
  ⟨let r := (Dispatch_dial_retry exampleHandler exampleWorld exampleIPDestination).1 2
      exampleConn (by decide)
      (fun i hi => ⟨"refused", by simp [exampleWorld, hi]⟩) rfl
   ⟨r.1, r.2.1, r.2.2.1⟩,
   let r := (Dispatch_dial_retry exampleHandler exampleDeadWorld exampleIPDestination).2
      (fun i => if i < 4 then "refused" else "unreachable") (fun _ _ => rfl)
   ⟨r.1, r.2.2.1, by rw [r.2.2.2.2 exampleIPDestination examplePayload rfl]⟩⟩

/-! ## Dispatch: resolution -/

/-- C9: `Dispatch` runs `ResolveIP` exactly when the strategy is USE_IP and the
destination is a domain.  In that case the run starts with the calls of `ResolveIP`,
no other call goes to the DNS server or the dice, and every dial is for the destination
`ResolveIP` returned (no dial at all if it panicked on a nil DNS server).  Otherwise
every dial is for the caller's destination, and there are between one and five of
them, and no call at all goes to the DNS server or the dice. -/
theorem Dispatch_resolves_iff (v : FreedomConnection) (w : World) (d : Destination)
    (payload : Buffer) (schedule : List Bool) :
    (v.domainStrategy = Config_DomainStrategy.USE_IP ∧
        d.Address.Family = AddressFamily.Domain →
      (∃ rest, (Dispatch v w d payload).trace schedule
          = Event.LogInfo "Freedom: Opening connection" :: (ResolveIP v w.dice d).2 ++ rest ∧
          ∀ e ∈ rest, (∀ name, e ≠ Event.DnsGet name) ∧ (∀ n, e ≠ Event.DiceRoll n)) ∧
      (∀ r, (ResolveIP v w.dice d).1 = Outcome.ok r →
        ∃ k, 1 ≤ k ∧ k ≤ 5 ∧
          dialedDestinations ((Dispatch v w d payload).trace schedule) = List.replicate k r) ∧
      (∀ msg, (ResolveIP v w.dice d).1 = Outcome.panic msg →
        dialedDestinations ((Dispatch v w d payload).trace schedule) = [])) ∧
    (¬ (v.domainStrategy = Config_DomainStrategy.USE_IP ∧
        d.Address.Family = AddressFamily.Domain) →
      (∃ k, 1 ≤ k ∧ k ≤ 5 ∧
        dialedDestinations ((Dispatch v w d payload).trace schedule) = List.replicate k d) ∧
      ∀ e ∈ (Dispatch v w d payload).trace schedule,
        (∀ name, e ≠ Event.DnsGet name) ∧ (∀ n, e ≠ Event.DiceRoll n)) := by
  obtain ⟨dials, rest, ht, hrest, hcase⟩ := Dispatch_trace_split v w d payload schedule
  obtain ⟨hpanic, hok⟩ := dialedDestinations_trace v w d payload schedule
  have hdials : ∀ e ∈ dials, (∀ name, e ≠ Event.DnsGet name) ∧ (∀ n, e ≠ Event.DiceRoll n) := by
    intro e he
    rcases hcase with ⟨_, _, hd⟩ | ⟨dest, k, _, _, _, hd⟩
    · rw [hd] at he; cases he
    · rw [hd] at he
      rw [List.eq_of_mem_replicate he]
      exact ⟨fun _ hne => (by cases hne), fun _ hne => (by cases hne)⟩
  constructor
  · intro hc
    have hrs := resolveStep_of_resolving v w d hc
    rw [hrs] at ht hpanic hok
    refine ⟨⟨dials ++ rest, by rw [ht]; simp, ?_⟩, hok, hpanic⟩
    intro e he
    rcases List.mem_append.mp he with he | he
    · exact hdials e he
    · exact calm_not_lookup e (hrest e he)
  · intro hc
    have hrs := resolveStep_of_not_resolving v w d hc
    rw [hrs] at ht hok
    refine ⟨hok d rfl, ?_⟩
    intro e he
    rw [ht] at he
    simp only [List.append_nil, List.cons_append, List.mem_cons, List.mem_append] at he
    rcases he with rfl | (he | he) | he
    · exact ⟨fun _ hne => (by cases hne), fun _ hne => (by cases hne)⟩
    · cases he
    · exact hdials e he
    · exact calm_not_lookup e (hrest e he)

theorem Dispatch_resolves_iff_witness :
    (¬ (exampleAsIsHandler.domainStrategy = Config_DomainStrategy.USE_IP ∧
        exampleDomain.Address.Family = AddressFamily.Domain)) ∧
    (∃ k, 1 ≤ k ∧ k ≤ 5 ∧
      dialedDestinations
          ((Dispatch exampleAsIsHandler exampleWorld exampleDomain examplePayload).trace [])
        = List.replicate k exampleDomain) ∧
    (exampleHandler.domainStrategy = Config_DomainStrategy.USE_IP ∧
        exampleDomain.Address.Family = AddressFamily.Domain) ∧
    (∃ k, 1 ≤ k ∧ k ≤ 5 ∧
      dialedDestinations
          ((Dispatch exampleHandler exampleWorld exampleDomain examplePayload).trace [])
        = List.replicate k (TCPDestination (IPAddress (IP.v4 167772162)) 80)) :=
  ⟨by decide,
   ((Dispatch_resolves_iff exampleAsIsHandler exampleWorld exampleDomain examplePayload []).2
      (by decide)).1,
   ⟨rfl, rfl⟩,
   ((Dispatch_resolves_iff exampleHandler exampleWorld exampleDomain examplePayload []).1
      ⟨rfl, rfl⟩).2.1 (TCPDestination (IPAddress (IP.v4 167772162)) 80) (by decide)⟩

/-! ## Dispatch: the initial payload -/

/-- C10: on a run whose dial succeeds with connection `conn`, under every schedule, the
calls split at the `go` statement that starts the uplink relay.  If the payload is
non-empty, the only write to the connection before that point carries exactly the
payload bytes, and over the whole run the writes to the connection are the payload
followed by the relayed chunks.  If the payload is empty, nothing is written to the
connection before that point, and the writes are the relayed chunks alone. -/
theorem Dispatch_payload_first (v : FreedomConnection) (w : World) (d : Destination)
    (payload : Buffer) (schedule : List Bool) (dest : Destination) (conn : Conn)
    (h : dialed v w d = some (dest, conn)) :
    ∃ before after,
      (Dispatch v w d payload).trace schedule = before ++ Event.GoUplink :: after ∧
      Event.GoUplink ∉ before ∧
      (∀ c bytes, Event.ConnWrite c bytes ∈ before →
        c = conn ∧ bytes = payload.Bytes ∧ payload.IsEmpty = false) ∧
      (payload.IsEmpty = false →
        connWrites conn before = [payload.Bytes] ∧
        connWrites conn ((Dispatch v w d payload).trace schedule)
          = payload.Bytes :: w.uplink) ∧
      (payload.IsEmpty = true →
        connWrites conn before = [] ∧
        connWrites conn ((Dispatch v w d payload).trace schedule) = w.uplink) := by
  obtain ⟨k, _, _, _, hD⟩ := Dispatch_of_dialed v w d payload dest conn h
  have hq : ∀ x ∈ [Event.LogInfo "Freedom: Opening connection"] ++ (resolveStep v w d).2
      ++ List.replicate k (Event.Dial v.meta.Address dest), x.quiet = true := by
    intro x hx
    simp only [List.mem_append, List.mem_singleton] at hx
    rcases hx with (rfl | hx) | hx
    · rfl
    · exact resolveStep_quiet v w d x hx
    · exact replicate_dial_quiet k _ _ x hx
  have hafter : connWrites conn
      (Event.GoUplink :: interleave schedule (downlinkBody v w dest conn) (uplinkBody w conn))
      = w.uplink := by
    have : Event.GoUplink :: interleave schedule (downlinkBody v w dest conn) (uplinkBody w conn)
        = [Event.GoUplink] ++ interleave schedule (downlinkBody v w dest conn) (uplinkBody w conn) :=
      rfl
    rw [this, connWrites_append,
      connWrites_interleave conn schedule _ _ (downlinkBody_no_write v w dest conn conn),
      connWrites_uplinkBody]
    rfl
  refine ⟨[Event.LogInfo "Freedom: Opening connection"] ++ (resolveStep v w d).2
      ++ List.replicate k (Event.Dial v.meta.Address dest)
      ++ (if !payload.IsEmpty then [Event.ConnWrite conn payload.Bytes] else []),
    interleave schedule (downlinkBody v w dest conn) (uplinkBody w conn), ?_, ?_, ?_, ?_, ?_⟩
  · rw [hD]; simp [Run.trace]
  · intro hmem
    rcases List.mem_append.mp hmem with hm | hm
    · have := hq _ hm
      exact Bool.noConfusion this
    · split at hm
      · simp at hm
      · simp at hm
  · intro c bytes hmem
    rcases List.mem_append.mp hmem with hm | hm
    · have := hq _ hm
      exact Bool.noConfusion this
    · cases hp : payload.IsEmpty
      · simp [hp] at hm
        exact ⟨hm.1, hm.2, rfl⟩
      · simp [hp] at hm
  · intro hp
    have hb : connWrites conn
        ([Event.LogInfo "Freedom: Opening connection"] ++ (resolveStep v w d).2
          ++ List.replicate k (Event.Dial v.meta.Address dest)
          ++ (if !payload.IsEmpty then [Event.ConnWrite conn payload.Bytes] else []))
        = [payload.Bytes] := by
      rw [connWrites_append, connWrites_quiet conn _ hq]
      simp [hp, connWrites]
    refine ⟨hb, ?_⟩
    rw [hD]
    simp only [Run.trace]
    rw [List.append_assoc _ [Event.GoUplink] _, connWrites_append, hb]
    simp only [List.singleton_append]
    rw [hafter]
  · intro hp
    have hb : connWrites conn
        ([Event.LogInfo "Freedom: Opening connection"] ++ (resolveStep v w d).2
          ++ List.replicate k (Event.Dial v.meta.Address dest)
          ++ (if !payload.IsEmpty then [Event.ConnWrite conn payload.Bytes] else []))
        = [] := by
      rw [connWrites_append, connWrites_quiet conn _ hq]
      simp [hp, connWrites]
    refine ⟨hb, ?_⟩
    rw [hD]
    simp only [Run.trace]
    rw [List.append_assoc _ [Event.GoUplink] _, connWrites_append, hb]
    simp only [List.singleton_append]
    rw [hafter]
    rfl

theorem Dispatch_payload_first_witness :
    dialed exampleHandler exampleWorld exampleDomain
      = some (TCPDestination (IPAddress (IP.v4 167772162)) 80, exampleConn) ∧
    examplePayload.IsEmpty = false ∧
    connWrites exampleConn
        ((Dispatch exampleHandler exampleWorld exampleDomain examplePayload).trace
          [false, true, false])
      = [71, 69, 84] :: [[1, 2], [3]] :=
  ⟨by decide, rfl,
    match Dispatch_payload_first exampleHandler exampleWorld exampleDomain examplePayload
      [false, true, false] (TCPDestination (IPAddress (IP.v4 167772162)) 80) exampleConn
      (by decide) with
    | ⟨_, _, _, _, _, hne, _⟩ => (hne rfl).2⟩

end Freedom
